import Mathlib

/-!
Verification of the data-normalization and forecasting pipeline of the
DiseaseTrackerApp repository (`processing.py`, `prediction.py`, `analysis.py`,
and the Zika call sites in `main_app.py`).

Dates are modelled as integer day ordinals (days since 1970-01-01, the value
pandas timestamps carry).  Calendar conversions use the standard proleptic
Gregorian civil-date algorithms, which is what pandas `dt.month`, `dt.day`,
`dt.dayofyear` and `dt.dayofweek` compute.  Float columns are modelled as `ℚ`;
cells that are NaN (missing or unparseable) are modelled as `Option` values,
and the places where the python code produces and then replaces non-finite
floats (`pct_change` on zeros) are modelled by the corresponding case split.
-/

namespace DiseaseTracker

/-! ## Calendar dates (proleptic Gregorian, day ordinal = days since 1970-01-01) -/

/-- Day ordinal of a civil date (year, month 1..12, day 1..31). -/
def daysFromCivil (y m d : ℤ) : ℤ :=
  let y2 := y - (if m ≤ 2 then 1 else 0)
  let era := Int.fdiv y2 400
  let yoe := y2 - era * 400
  let mp := Int.emod (m + 9) 12
  let doy := Int.fdiv (153 * mp + 2) 5 + d - 1
  let doe := yoe * 365 + Int.fdiv yoe 4 - Int.fdiv yoe 100 + doy
  era * 146097 + doe - 719468

/-- Civil date (year, month, day) of a day ordinal. -/
def civilFromDays (z : ℤ) : ℤ × ℤ × ℤ :=
  let z2 := z + 719468
  let era := Int.fdiv z2 146097
  let doe := z2 - era * 146097
  let yoe := Int.fdiv (doe - Int.fdiv doe 1460 + Int.fdiv doe 36524 - Int.fdiv doe 146096) 365
  let y := yoe + era * 400
  let doy := doe - (365 * yoe + Int.fdiv yoe 4 - Int.fdiv yoe 100)
  let mp := Int.fdiv (5 * doy + 2) 153
  let d := doy - Int.fdiv (153 * mp + 2) 5 + 1
  let m := mp + (if mp < 10 then 3 else -9)
  (y + (if m ≤ 2 then 1 else 0), m, d)

/-- `date.dt.month` of a day ordinal. -/
def monthOfDay (z : ℤ) : ℤ := (civilFromDays z).2.1

/-- `date.dt.day` (day of month) of a day ordinal. -/
def dayOfMonth (z : ℤ) : ℤ := (civilFromDays z).2.2

/-- `date.dt.dayofyear` of a day ordinal (1-based). -/
def dayOfYear (z : ℤ) : ℤ := z - daysFromCivil (civilFromDays z).1 1 1 + 1

/-- `date.dt.dayofweek` of a day ordinal (Monday = 0; 1970-01-01 was a Thursday). -/
def dayOfWeek (z : ℤ) : ℤ := Int.emod (z + 3) 7

/-! ## Generic list machinery

`sortBy` is the executable model of pandas `sort_values`.  `sort_values`
defaults to quicksort, which pandas does not document as stable, so the order
among equal keys is unspecified by the program; `sortBy` (a stable insertion
sort) is one admissible refinement of that choice.  Statements whose truth
would depend on the tie order therefore quantify over *every* key-sorted
permutation of the input instead of relying on this refinement.
`dropDupKeepLast` models `drop_duplicates(subset=['date'], keep='last')`:
a row is kept iff no later row has the same key. -/

def ordInsert {α : Type} (le : α → α → Bool) (a : α) : List α → List α
  | [] => [a]
  | b :: l => if le a b then a :: b :: l else b :: ordInsert le a l

def sortBy {α : Type} (le : α → α → Bool) : List α → List α
  | [] => []
  | x :: xs => ordInsert le x (sortBy le xs)

def dropDupKeepLast {α : Type} (key : α → ℤ) : List α → List α
  | [] => []
  | x :: xs => if xs.any (fun y => key y = key x) then dropDupKeepLast key xs
               else x :: dropDupKeepLast key xs

/-- Truncation toward zero, the conversion `astype(int)` applies to floats
(`Int.div` is Lean's truncating division; a rational is stored in lowest
terms, so numerator over denominator truncated is exactly Python `int()`). -/
def truncQ (q : ℚ) : ℤ := Int.tdiv q.num (q.den : ℤ)

/-- Median of a list of rationals, as pandas `Series.median`:
sort, take the middle element (odd length) or the mean of the two middle
elements (even length); `none` on the empty list (pandas NaN). -/
def medianQ (l : List ℚ) : Option ℚ :=
  if l.isEmpty then none
  else
    let s := sortBy (fun a b => a ≤ b) l
    let n := s.length
    if n % 2 = 1 then some (s.getD (n / 2) 0)
    else some ((s.getD (n / 2 - 1) 0 + s.getD (n / 2) 0) / 2)

/-- Consecutive differences of the date column, in days (`date.diff()`). -/
def diffsQ : List ℤ → List ℚ
  | [] => []
  | [_] => []
  | a :: b :: t => ((b - a : ℤ) : ℚ) :: diffsQ (b :: t)

/-- Date column strictly increasing (no duplicate dates after sorting).
pandas `resample` raises on an index with duplicate labels; the code catches
that and skips resampling, so the resampling branch is guarded by this. -/
def strictlyIncreasing : List ℤ → Bool
  | [] => true
  | [_] => true
  | a :: b :: t => decide (a < b) && strictlyIncreasing (b :: t)

/-! ## Canonicalizer: `processing.common_post_processing` -/

/-- One row of the canonical series: `date`, the target column (`cases` or
`deaths`), the calendar features, the rolling average column
(`<target>_7d_avg`) and `growth_rate`. -/
structure Row where
  date : ℤ
  value : ℤ
  day_of_year : ℤ
  month : ℤ
  day : ℤ
  day_of_week : ℤ
  avg7 : ℚ
  growth_rate : ℚ
  deriving Repr, DecidableEq

/-- Forward-fill lookup: value of the most recent observation at or before
day `d` (the value `resample('D').ffill()` assigns to day `d`). -/
def ffillValue (s : List (ℤ × ℚ)) (d : ℤ) : ℚ :=
  (((s.filter (fun r => r.1 ≤ d)).getLast?).map Prod.snd).getD 0

/-- `set_index('date').resample('D').ffill().reset_index()`: one row per
calendar day from the first to the last date, forward-filled. -/
def resampleDaily (s : List (ℤ × ℚ)) : List (ℤ × ℚ) :=
  match s.head?, s.getLast? with
  | some f, some l =>
      (List.range (l.1 - f.1 + 1).toNat).map
        (fun i => (f.1 + (i : ℤ), ffillValue s (f.1 + (i : ℤ))))
  | _, _ => s

/-- `rolling(window=7, min_periods=1).mean()` at position `t`:
mean of the trailing `min(7, t+1)` values. -/
def rollingMean7 (vs : List ℤ) (t : ℕ) : ℚ :=
  let w := (vs.take (t + 1)).drop (t + 1 - 7)
  ((w.map (fun v => (v : ℚ))).sum) / (w.length : ℚ)

/-- Day-over-day growth of the target.  `pct_change(fill_method=None)` gives
NaN (0/0) or ±inf (x/0) when the previous value is 0; the code replaces those
with NaN and then fills with 0, hence the first branch. -/
def growthRate (prev cur : ℤ) : ℚ :=
  if prev = 0 then 0 else (((cur : ℚ) - (prev : ℚ)) / (prev : ℚ)) * 100

/-- Row `t` of the canonical series built from dates `ds` and values `vs`. -/
def mkRow (ds : List ℤ) (vs : List ℤ) (t : ℕ) : Row :=
  let d := ds.getD t 0
  { date := d
    value := vs.getD t 0
    day_of_year := dayOfYear d
    month := monthOfDay d
    day := dayOfMonth d
    day_of_week := dayOfWeek d
    avg7 := rollingMean7 vs t
    growth_rate := if t = 0 then 0 else growthRate (vs.getD (t - 1) 0) (vs.getD t 0) }

/-- The table after the sort / frequency-detection / optional-resampling part
of `common_post_processing`: sort by date; with more than one row compute the
median day gap of the date column and, when it lies in [6 days, 8 days],
resample to daily with forward fill.  pandas `resample` raises on an index
with duplicate labels; the source catches the exception and keeps the sorted,
unresampled table, hence the `strictlyIncreasing` guard. -/
def resampledOf (rows : List (ℤ × ℚ)) : List (ℤ × ℚ) :=
  let sorted := sortBy (fun a b => decide (a.1 ≤ b.1)) rows
  if 1 < sorted.length then
    match medianQ (diffsQ (sorted.map Prod.fst)) with
    | some m =>
        if 6 ≤ m ∧ m ≤ 8 then
          if strictlyIncreasing (sorted.map Prod.fst) then resampleDaily sorted
          else sorted
        else sorted
    | none => sorted
  else sorted

/-- The feature-engineering part of `common_post_processing`: `astype(int)` on
the target, calendar features, `<target>_7d_avg`, `growth_rate`. -/
def buildSeries (ps : List (ℤ × ℚ)) : List Row :=
  (List.range ps.length).map
    (mkRow (ps.map Prod.fst) (ps.map (fun r => truncQ r.2)))

/-- `processing.common_post_processing`.  Input: the `(date, value)` table an
adapter produced (value cells already numeric, NaN filled with 0 upstream and
re-filled here, modelled as `ℚ`).  Empty input returns an empty table. -/
def common_post_processing (rows : List (ℤ × ℚ)) : List Row :=
  if rows.isEmpty then [] else buildSeries (resampledOf rows)

/-! ## Source adapters: `processing.preprocess_covid_data` and
`processing.preprocess_influenza_data`

Rows model the raw tables at the granularity the claims need: the location
cell, the date cell and the target cell(s).  Cells that are NaN (missing or
failing numeric parsing, so that `pd.to_numeric(..., errors='coerce')` yields
NaN) are `none`; the influenza date cell is `none` when
`pd.to_datetime(..., errors='coerce')` yields NaT.  Column-level operations of
the source (selecting relevant columns, dropping sparse columns above the
missing-value threshold — `date` and the target column are protected —
zero-filling auxiliary columns, dropping the smoothed columns) neither add,
remove nor reorder rows and never touch the date or target cells, so they are
invisible at this granularity.

Python functions receive the caller's table by reference, so each adapter is
modelled in state-passing style: it returns its result *and* the table the
caller is left holding.  `preprocess_covid_data` only ever works on a `.copy()`;
`preprocess_influenza_data` executes
`df_raw[col] = df_raw[col].astype(str)` on the country column of the caller's
table before filtering, which rewrites those cells in place. -/

inductive TargetType
  | Cases
  | Deaths
  deriving DecidableEq, Repr

structure CovidRow where
  country : String
  date : ℤ
  new_cases : Option ℚ
  new_deaths : Option ℚ
  deriving DecidableEq, Repr

/-- The source column selected by `target_type` (`config.COVID_CASES_INPUT_COL`
= `new_cases`, `config.COVID_DEATHS_INPUT_COL` = `new_deaths`). -/
def covidSourceCell : TargetType → CovidRow → Option ℚ
  | .Cases, r => r.new_cases
  | .Deaths, r => r.new_deaths

/-- `df[df['country'].eq(country_to_process)]` — exact string match. -/
def covidFiltered (df : List CovidRow) (c : String) : List CovidRow :=
  df.filter (fun r => decide (r.country = c))

def covidNotFoundMsg (c : String) : String :=
  "No COVID data rows found for the selected country: '" ++ c ++ "'."

/-- `processing.preprocess_covid_data`: filter to the country (error with the
message above when no row matches; the sample of available countries is only
`print`ed), sort by date, coerce the selected target column to numeric with
NaN filled by 0, and return the `(date, target)` table.  The second component
is the table the caller is left with: the input, untouched. -/
def preprocess_covid_data (df : List CovidRow) (c : String) (t : TargetType) :
    Except String (List (ℤ × ℚ)) × List CovidRow :=
  (if df.isEmpty then Except.error "Input DataFrame is None/empty."
   else
     let filtered := covidFiltered df c
     if filtered.isEmpty then Except.error (covidNotFoundMsg c)
     else
       Except.ok ((sortBy (fun a b => decide (a.date ≤ b.date)) filtered).map
         (fun r => (r.date, (covidSourceCell t r).getD 0))),
   df)

/-- An object-dtype cell of the raw influenza `Country` column. -/
inductive Cell
  | str (s : String)
  | int (n : ℤ)
  deriving DecidableEq, Repr

/-- Python `str(x)`, applied cell-wise by `astype(str)`. -/
def cellStr : Cell → String
  | .str s => s
  | .int n => toString n

structure FluRow where
  country : Cell
  edate : Option ℤ
  all_inf : Option ℚ
  deriving DecidableEq, Repr

/-- In-place effect of `df_raw[country_col] = df_raw[country_col].astype(str)`:
every cell of the country column is replaced by its string representation;
all other cells are untouched. -/
def stringifyCountry (df : List FluRow) : List FluRow :=
  df.map (fun r => { r with country := .str (cellStr r.country) })

/-- Python `str.strip()`: drop leading and trailing whitespace. -/
def pyStrip (s : String) : String :=
  String.mk (((s.data.dropWhile Char.isWhitespace).reverse.dropWhile
    Char.isWhitespace).reverse)

/-- Python `str.lower()`, character-wise. -/
def pyLower (s : String) : String := String.mk (s.data.map Char.toLower)

/-- `df_raw[col].str.strip().str.lower() == country_to_process.strip().lower()`.
Only string cells exist once `astype(str)` has run. -/
def fluMatches (c : String) (r : FluRow) : Bool :=
  match r.country with
  | .str s => decide (pyLower (pyStrip s) = pyLower (pyStrip c))
  | .int _ => false

def fluNotFoundMsg (c : String) : String :=
  "No Influenza data rows found for the selected country: '" ++ c ++ "'."

/-- The standardized single-country table before sorting: select and rename
the date and cases columns, drop rows whose date failed to parse (NaT), coerce
cases to numeric with NaN filled by 0 and `astype(int)`.  Row order is the raw
file order. -/
def fluStd (df : List FluRow) (c : String) : List (ℤ × ℤ) :=
  ((stringifyCountry df).filter (fluMatches c)).filterMap
    (fun r => r.edate.map (fun d => (d, truncQ (r.all_inf.getD 0))))

/-- `processing.preprocess_influenza_data`: stringify the country column of
the caller's table in place, filter to the country case-insensitively (error
when no row matches; the sample of available countries is only `print`ed),
standardize the date and cases columns, sort by date and
`drop_duplicates(subset=['date'], keep='last')`.  The second component is the
table the caller is left with: the input with its country column stringified
(an inner `raise` for an all-NaT date column is caught and re-raised as
"Date conversion failed."). -/
def preprocess_influenza_data (df : List FluRow) (c : String) :
    Except String (List (ℤ × ℤ)) × List FluRow :=
  if df.isEmpty then (Except.error "Input Raw Influenza DataFrame is None/empty.", df)
  else
    let df2 := stringifyCountry df
    (if (df2.filter (fluMatches c)).isEmpty then Except.error (fluNotFoundMsg c)
     else
       let std := fluStd df c
       if std.isEmpty then Except.error "Date conversion failed."
       else
         Except.ok (dropDupKeepLast Prod.fst
           (sortBy (fun a b => decide (a.1 ≤ b.1)) std)),
     df2)

/-! ## Forecast engine: `prediction.train_prediction_model` and
`prediction.generate_predictions` -/

/-- One row of the table handed to the trainer, at the granularity of the
required columns `config.PREDICTION_FEATURE_COLS + [target]`:
`['day_of_year', 'month', 'day', 'day_of_week', target]`.  `none` is NaN. -/
structure TrainRow where
  day_of_year : Option ℚ
  month : Option ℚ
  day : Option ℚ
  day_of_week : Option ℚ
  target : Option ℚ
  deriving DecidableEq, Repr

/-- A row survives `df[required_cols].dropna()` iff no required cell is NaN. -/
def trainRowComplete (r : TrainRow) : Bool :=
  r.day_of_year.isSome && r.month.isSome && r.day.isSome
    && r.day_of_week.isSome && r.target.isSome

/-- The hard-coded minimum viable training-set size of
`prediction.train_prediction_model`. -/
def minTrainingRows : ℕ := 10

def insufficientDataMsg (n : ℕ) (label : String) : String :=
  "Insufficient data (" ++ toString n ++ " rows) for " ++ label
    ++ " remaining after cleaning for model training. Need at least "
    ++ toString minTrainingRows ++ "."

def noValidDataMsg (label : String) : String :=
  "No valid historical data for " ++ label
    ++ " modeling after dropping NaNs from required columns."

/-- The validation pipeline of `prediction.train_prediction_model` up to the
point where the `RandomForestRegressor` is fitted: empty-input check, dropna
over the required columns, empty-after-dropna check, minimum-row check.  On
success it returns the cleaned rows the model is fitted on. -/
def train_prediction_model (df : List TrainRow) (target_col_name : String) :
    Except String (List TrainRow) :=
  let label := target_col_name.capitalize
  if df.isEmpty then Except.error "Input DataFrame for training is empty."
  else
    let model_data := df.filter trainRowComplete
    if model_data.isEmpty then Except.error (noValidDataMsg label)
    else if model_data.length < minTrainingRows then
      Except.error (insufficientDataMsg model_data.length label)
    else Except.ok model_data

/-- numpy `round`: round half to even, elementwise. -/
def npRound (q : ℚ) : ℤ :=
  if q - (⌊q⌋ : ℚ) = 1 / 2 then (if 2 ∣ ⌊q⌋ then ⌊q⌋ else ⌊q⌋ + 1)
  else round q

/-- The feature vector `[date.timetuple().tm_yday, date.month, date.day,
date.weekday()]` built for a future day. -/
def futureFeatures (d : ℤ) : List ℚ :=
  [(dayOfYear d : ℚ), (monthOfDay d : ℚ), (dayOfMonth d : ℚ), (dayOfWeek d : ℚ)]

/-- `prediction.generate_predictions`.  The fitted model and scaler are opaque
row-wise functions (`StandardScaler.transform` and
`RandomForestRegressor.predict` both act row by row).  Future dates start the
day after `last_hist_date` and run for `num_days` days; raw predictions are
rounded and clipped via `np.maximum(0, np.round(...)).astype(int)`. -/
def generate_predictions (model : List ℚ → ℚ) (scaler : List ℚ → List ℚ)
    (num_days : ℤ) (last_hist_date : ℤ) : Except String (List (ℤ × ℤ)) :=
  if num_days ≤ 0 then
    Except.error ("Invalid number of days to predict: " ++ toString num_days
      ++ ". Must be a positive integer.")
  else
    Except.ok ((List.range num_days.toNat).map (fun i : ℕ =>
      let d := last_hist_date + 1 + (i : ℤ)
      (d, max 0 (npRound (model (scaler (futureFeatures d)))))))

/-! ## Descriptive statistics engine: `analysis.calculate_analysis_stats` -/

/-- The mean of `growth_rate` over the trailing 7 observations
(`df['growth_rate'].iloc[-7:]`, then `.mean()`). -/
def recentMeanGrowth (df : List Row) : ℚ :=
  let recent := (df.drop (df.length - 7)).map Row.growth_rate
  recent.sum / (recent.length : ℚ)

/-- The risk-level / trend-description block of
`analysis.calculate_analysis_stats` (the defaults are `"Medium"` / `"Stable"`;
in a canonical series the `growth_rate` column exists and is never NaN, so the
`isnull` guards of the source are never taken). -/
def riskTrend (df : List Row) : String × String :=
  if 7 ≤ df.length then
    let g := recentMeanGrowth df
    if 5 < g then ("High", "↗️ Increasing")
    else if g < -5 then ("Low", "↘️ Decreasing")
    else if 1 < g then ("Medium", "↗️ Slightly Inc")
    else if g < -1 then ("Low", "↘️ Slightly Dec")
    else ("Medium", "Stable")
  else if df.isEmpty = false then ("Medium", "Insufficient history")
  else ("Medium", "Growth N/A")

/-- The scalar summary of `analysis.calculate_analysis_stats`. -/
structure AnalysisStats where
  raw_total : ℚ
  raw_avg : ℚ
  risk_level : String
  trend_desc : String
  deriving DecidableEq, Repr

/-- `analysis.calculate_analysis_stats`: an explicit error marker (never an
exception) for empty input, otherwise the totals and the risk/trend
classification. -/
def calculate_analysis_stats (df : List Row) : Except String AnalysisStats :=
  if df.isEmpty then Except.error "Input data is empty"
  else
    let vals := df.map (fun r => (r.value : ℚ))
    Except.ok
      { raw_total := vals.sum
        raw_avg := vals.sum / (vals.length : ℚ)
        risk_level := (riskTrend df).1
        trend_desc := (riskTrend df).2 }

/-! ## The Zika path: `main_app._processing_zika_thread_target` and the two
Zika passes of `main_app._export_all_cleaned_data_thread_target`

Every Zika invocation resolves the attribute `preprocess_zika_data` on the
`processing` module.  The names defined at top level of `processing.py` are
listed below; resolving a missing attribute raises `AttributeError`. -/

/-- The names bound at top level of `processing.py` (its imports and its three
function definitions). -/
def processingModuleAttrs : List String :=
  ["pd", "np", "timedelta", "config", "traceback",
   "preprocess_covid_data", "preprocess_influenza_data", "common_post_processing"]

def zikaAttrErrorMsg : String :=
  "module 'processing' has no attribute 'preprocess_zika_data'"

/-- Python attribute resolution on the `processing` module. -/
def lookupProcessingAttr (name : String) : Except String Unit :=
  if processingModuleAttrs.contains name then Except.ok ()
  else Except.error ("AttributeError: module 'processing' has no attribute '"
    ++ name ++ "'")

/-- `main_app._processing_zika_thread_target` for one country and target kind:
its first processing step evaluates `processing.preprocess_zika_data(...)`,
i.e. resolves that attribute.  The continuation (preprocessing, post-processing,
storing `self.disease_data`) only runs if the attribute resolves, which the
list above decides; it is modelled as plain success. -/
def processing_zika_thread_target (country targetType : String) :
    Except String Unit :=
  (lookupProcessingAttr "preprocess_zika_data").bind (fun _ => Except.ok ())

/-- One Zika pass (Cases or Deaths) of
`main_app._export_all_cleaned_data_thread_target`: iterate the countries; for
each, a `try` block evaluates `processing.preprocess_zika_data(...)` and
appends the cleaned table; `except` logs the failure, sets `errors_occurred`
and continues.  Collected tables are identified by their country name. -/
def export_zika_pass (countries : List String) : List String × Bool :=
  countries.foldl
    (fun acc c =>
      match lookupProcessingAttr "preprocess_zika_data" with
      | Except.ok _ => (acc.1 ++ [c], acc.2)
      | Except.error _ => (acc.1, true))
    ([], false)

/-! ## General lemmas about the list machinery -/

section SortLemmas

variable {α : Type} (le : α → α → Bool)

theorem ordInsert_perm (a : α) (l : List α) : (ordInsert le a l).Perm (a :: l) := by
  induction l with
  | nil => exact List.Perm.refl _
  | cons b t ih =>
      by_cases h : le a b
      · simp [ordInsert, h]
      · simp only [ordInsert, h, if_false, Bool.false_eq_true]
        exact (ih.cons b).trans (List.Perm.swap a b t)

theorem sortBy_perm (l : List α) : (sortBy le l).Perm l := by
  induction l with
  | nil => exact List.Perm.refl _
  | cons x xs ih => exact (ordInsert_perm le x (sortBy le xs)).trans (ih.cons x)

theorem sortBy_length (l : List α) : (sortBy le l).length = l.length :=
  (sortBy_perm le l).length_eq

theorem mem_ordInsert {x a : α} {l : List α} (h : x ∈ ordInsert le a l) :
    x = a ∨ x ∈ l := by
  have := (ordInsert_perm le a l).mem_iff.mp h
  simpa using this

theorem pairwise_ordInsert
    (htot : ∀ a b, le a b = false → le b a = true)
    (htrans : ∀ a b c, le a b = true → le b c = true → le a c = true)
    (a : α) (l : List α) (hl : l.Pairwise (fun x y => le x y = true)) :
    (ordInsert le a l).Pairwise (fun x y => le x y = true) := by
  induction l with
  | nil => simp [ordInsert]
  | cons b t ih =>
      by_cases h : le a b
      · simp only [ordInsert, h, if_true]
        refine List.Pairwise.cons ?_ hl
        intro x hx
        rcases List.mem_cons.mp hx with hxb | hxt
        · rw [hxb]; exact h
        · exact htrans a b x h (List.rel_of_pairwise_cons hl hxt)
      · simp only [ordInsert, h, if_false, Bool.false_eq_true]
        refine List.Pairwise.cons ?_ (ih hl.tail)
        intro x hx
        rcases mem_ordInsert le hx with hxa | hxt
        · rw [hxa]; exact htot a b (by simpa using h)
        · exact List.rel_of_pairwise_cons hl hxt

theorem pairwise_sortBy
    (htot : ∀ a b, le a b = false → le b a = true)
    (htrans : ∀ a b c, le a b = true → le b c = true → le a c = true)
    (l : List α) : (sortBy le l).Pairwise (fun x y => le x y = true) := by
  induction l with
  | nil => simp [sortBy]
  | cons x xs ih => exact pairwise_ordInsert le htot htrans x _ ih

theorem sortBy_eq_self (l : List α) (hl : l.Pairwise (fun x y => le x y = true)) :
    sortBy le l = l := by
  induction l with
  | nil => rfl
  | cons x xs ih =>
      have hxs : sortBy le xs = xs := ih hl.tail
      show ordInsert le x (sortBy le xs) = x :: xs
      rw [hxs]
      cases xs with
      | nil => rfl
      | cons b t =>
          have hxb : le x b = true :=
            List.rel_of_pairwise_cons hl (List.mem_cons_self b t)
          simp [ordInsert, hxb]

theorem filter_ordInsert (p : α → Bool) (a : α) (l : List α)
    (hp : ∀ b, p a = true → le a b = false → p b = false) :
    (ordInsert le a l).filter p =
      if p a then a :: l.filter p else l.filter p := by
  induction l with
  | nil => cases h : p a <;> simp [ordInsert, List.filter, h]
  | cons b t ih =>
      by_cases h : le a b
      · cases ha : p a <;> simp [ordInsert, h, List.filter_cons, ha]
      · have h' : le a b = false := by simpa using h
        simp only [ordInsert, h', Bool.false_eq_true, if_false, List.filter_cons, ih]
        cases ha : p a
        · simp
        · have hb : p b = false := hp b ha h'
          simp [hb]

theorem filter_sortBy (p : α → Bool) (l : List α)
    (hp : ∀ a b, p a = true → le a b = false → p b = false) :
    (sortBy le l).filter p = l.filter p := by
  induction l with
  | nil => rfl
  | cons x xs ih =>
      show (ordInsert le x (sortBy le xs)).filter p = _
      rw [filter_ordInsert le p x _ (fun b => hp x b)]
      cases hx : p x <;> simp [List.filter_cons, hx, ih]

end SortLemmas

section DedupLemmas

variable {α : Type} (key : α → ℤ)

theorem dropDupKeepLast_sublist (l : List α) :
    (dropDupKeepLast key l).Sublist l := by
  induction l with
  | nil => exact List.Sublist.refl _
  | cons x xs ih =>
      by_cases h : xs.any (fun y => decide (key y = key x))
      · simp only [dropDupKeepLast, h, if_true]
        exact ih.cons x
      · simp only [dropDupKeepLast, h, if_false, Bool.false_eq_true]
        exact ih.cons₂ x

theorem getLast?_cons_of_ne_nil {x : α} {l : List α} (h : l ≠ []) :
    (x :: l).getLast? = l.getLast? := by
  cases l with
  | nil => exact absurd rfl h
  | cons b t => simp [List.getLast?_cons_cons]

theorem filter_dropDupKeepLast (d : ℤ) (l : List α) :
    (dropDupKeepLast key l).filter (fun x => decide (key x = d)) =
      ((l.filter (fun x => decide (key x = d))).getLast?).toList := by
  induction l with
  | nil => rfl
  | cons x xs ih =>
      by_cases hdup : xs.any (fun y => decide (key y = key x))
      · simp only [dropDupKeepLast, hdup, if_true]
        rw [ih, List.filter_cons]
        by_cases hx : key x = d
        · have hne : xs.filter (fun y => decide (key y = d)) ≠ [] := by
            rcases List.any_eq_true.mp hdup with ⟨y, hy, hyk⟩
            have hyk' : key y = key x := of_decide_eq_true hyk
            have : y ∈ xs.filter (fun y => decide (key y = d)) :=
              List.mem_filter.mpr ⟨hy, by simp [hyk', hx]⟩
            exact List.ne_nil_of_mem this
          rw [if_pos (by simp [hx]), getLast?_cons_of_ne_nil hne]
        · rw [if_neg (by simp [hx])]
      · simp only [dropDupKeepLast, hdup, if_false, Bool.false_eq_true]
        rw [List.filter_cons, List.filter_cons]
        by_cases hx : key x = d
        · have hnil : xs.filter (fun y => decide (key y = d)) = [] := by
            rw [List.filter_eq_nil_iff]
            intro y hy
            simp only [decide_eq_true_eq]
            intro hyd
            have : xs.any (fun y => decide (key y = key x)) = true :=
              List.any_eq_true.mpr ⟨y, hy, by simp [hyd, hx]⟩
            exact absurd this (by simpa using hdup)
          rw [if_pos (by simp [hx]), if_pos (by simp [hx]), ih, hnil]
          rfl
        · rw [if_neg (by simp [hx]), if_neg (by simp [hx]), ih]

end DedupLemmas

/-! ## Lemmas about the canonicalizer -/

theorem truncQ_intCast (k : ℤ) : truncQ ((k : ℚ)) = k := by
  simp [truncQ, Rat.num_intCast, Rat.den_intCast, Int.tdiv_one]

theorem rangeMap_getD {β : Type} (f : ℕ → β) (n t : ℕ) (d : β) (ht : t < n) :
    ((List.range n).map f).getD t d = f t := by
  rw [List.getD_eq_getElem _ d (by simpa using ht)]
  simp [List.getElem_map, List.getElem_range]

theorem buildSeries_length (ps : List (ℤ × ℚ)) :
    (buildSeries ps).length = ps.length := by
  simp [buildSeries]

theorem buildSeries_map_date (ps : List (ℤ × ℚ)) :
    (buildSeries ps).map Row.date = ps.map Prod.fst := by
  apply List.ext_getElem
  · simp [buildSeries]
  · intro i h1 h2
    have hi : i < ps.length := by simpa [buildSeries] using h1
    simp only [List.getElem_map, buildSeries, List.getElem_range, mkRow]
    rw [List.getD_eq_getElem _ 0 (by simpa using hi), List.getElem_map]

theorem buildSeries_map_value (ps : List (ℤ × ℚ)) :
    (buildSeries ps).map Row.value = ps.map (fun r => truncQ r.2) := by
  apply List.ext_getElem
  · simp [buildSeries]
  · intro i h1 h2
    have hi : i < ps.length := by simpa [buildSeries] using h1
    simp only [List.getElem_map, buildSeries, List.getElem_range, mkRow]
    rw [List.getD_eq_getElem _ 0 (by simpa using hi), List.getElem_map]

theorem buildSeries_growth_getD (ps : List (ℤ × ℚ)) (t : ℕ) (ht : t < ps.length) :
    ((buildSeries ps).map Row.growth_rate).getD t 0 =
      if t = 0 then 0
      else growthRate ((ps.map (fun r => truncQ r.2)).getD (t - 1) 0)
        ((ps.map (fun r => truncQ r.2)).getD t 0) := by
  have : (buildSeries ps).map Row.growth_rate =
      (List.range ps.length).map
        (fun t => (mkRow (ps.map Prod.fst) (ps.map (fun r => truncQ r.2)) t).growth_rate) := by
    simp [buildSeries, List.map_map]
  rw [this, rangeMap_getD _ _ _ _ ht]
  rfl

theorem common_post_processing_of_ne_nil {rows : List (ℤ × ℚ)} (h : rows ≠ []) :
    common_post_processing rows = buildSeries (resampledOf rows) := by
  simp [common_post_processing, h]

/-! ## Daily tables (already-canonical input) -/

/-- The table of a daily series: consecutive calendar days starting at `d0`,
with integer values. -/
def dailyTable (d0 : ℤ) : List ℤ → List (ℤ × ℚ)
  | [] => []
  | v :: vs => (d0, (v : ℚ)) :: dailyTable (d0 + 1) vs

theorem dailyTable_length (d0 : ℤ) (vs : List ℤ) :
    (dailyTable d0 vs).length = vs.length := by
  induction vs generalizing d0 with
  | nil => rfl
  | cons v vs ih => simp [dailyTable, ih]

theorem dailyTable_fst_ge (d0 : ℤ) (vs : List ℤ) :
    ∀ p ∈ dailyTable d0 vs, d0 ≤ p.1 := by
  induction vs generalizing d0 with
  | nil => intro p hp; simp [dailyTable] at hp
  | cons v vs ih =>
      intro p hp
      rcases List.mem_cons.mp hp with hph | hpt
      · rw [hph]
      · have := ih (d0 + 1) p hpt
        omega

theorem dailyTable_pairwise (d0 : ℤ) (vs : List ℤ) :
    (dailyTable d0 vs).Pairwise (fun a b => (decide (a.1 ≤ b.1)) = true) := by
  induction vs generalizing d0 with
  | nil => simp [dailyTable]
  | cons v vs ih =>
      refine List.Pairwise.cons ?_ (ih (d0 + 1))
      intro p hp
      have := dailyTable_fst_ge (d0 + 1) vs p hp
      simp only [decide_eq_true_eq]
      omega

theorem diffsQ_dailyTable (d0 : ℤ) (vs : List ℤ) :
    diffsQ ((dailyTable d0 vs).map Prod.fst) = List.replicate (vs.length - 1) 1 := by
  induction vs generalizing d0 with
  | nil => rfl
  | cons v vs ih =>
      cases vs with
      | nil => rfl
      | cons w ws =>
          have hih := ih (d0 + 1)
          simp only [dailyTable, List.map_cons] at hih ⊢
          rw [diffsQ]
          rw [hih]
          have h1 : ((d0 + 1 - d0 : ℤ) : ℚ) = 1 := by norm_num
          rw [h1]
          simp [List.replicate]

theorem replicate_pairwise_le (n : ℕ) :
    (List.replicate n (1 : ℚ)).Pairwise (fun a b => (decide (a ≤ b)) = true) := by
  induction n with
  | zero => simp
  | succ n ih =>
      rw [List.replicate_succ]
      refine List.Pairwise.cons ?_ ih
      intro b hb
      rw [List.eq_of_mem_replicate hb]
      simp

theorem medianQ_replicate_one (n : ℕ) (h : 1 ≤ n) :
    medianQ (List.replicate n (1 : ℚ)) = some 1 := by
  have hne : (List.replicate n (1 : ℚ)).isEmpty = false := by
    cases n with
    | zero => omega
    | succ m => simp [List.replicate_succ]
  have hsort : sortBy (fun a b => decide (a ≤ b)) (List.replicate n (1 : ℚ))
      = List.replicate n 1 :=
    sortBy_eq_self _ _ (replicate_pairwise_le n)
  have hgetD : ∀ i, i < n → (List.replicate n (1 : ℚ)).getD i 0 = 1 := by
    intro i hi
    rw [List.getD_eq_getElem _ 0 (by simpa using hi)]
    simp
  rw [medianQ, if_neg (by simp [hne]), hsort]
  simp only [List.length_replicate]
  by_cases hodd : n % 2 = 1
  · rw [if_pos hodd, hgetD _ (Nat.div_lt_self (by omega) (by omega))]
  · rw [if_neg hodd]
    have h2 : 2 ≤ n := by omega
    rw [hgetD _ (by omega), hgetD _ (Nat.div_lt_self (by omega) (by omega))]
    norm_num

theorem resampledOf_dailyTable (d0 : ℤ) (vs : List ℤ) :
    resampledOf (dailyTable d0 vs) = dailyTable d0 vs := by
  have hsort : sortBy (fun a b => decide (a.1 ≤ b.1)) (dailyTable d0 vs)
      = dailyTable d0 vs :=
    sortBy_eq_self _ _ (dailyTable_pairwise d0 vs)
  rw [resampledOf]
  simp only [hsort]
  by_cases hlen : 1 < (dailyTable d0 vs).length
  · rw [if_pos hlen]
    have hlen' : 1 ≤ vs.length - 1 := by
      rw [dailyTable_length] at hlen; omega
    rw [diffsQ_dailyTable, medianQ_replicate_one _ hlen']
    have : ¬ ((6 : ℚ) ≤ 1 ∧ (1 : ℚ) ≤ 8) := by norm_num
    simp [this]
  · rw [if_neg hlen]

theorem cpp_dailyTable (d0 : ℤ) (vs : List ℤ) :
    common_post_processing (dailyTable d0 vs) = buildSeries (dailyTable d0 vs) := by
  cases vs with
  | nil => rfl
  | cons v vs =>
      rw [common_post_processing_of_ne_nil (by simp [dailyTable]),
        resampledOf_dailyTable]

theorem buildSeries_proj (ps : List (ℤ × ℚ)) :
    (buildSeries ps).map (fun r => (r.date, (r.value : ℚ)))
      = ps.map (fun p => (p.1, ((truncQ p.2 : ℤ) : ℚ))) := by
  apply List.ext_getElem
  · simp [buildSeries]
  · intro i h1 h2
    have hi : i < ps.length := by simpa [buildSeries] using h1
    simp only [List.getElem_map, buildSeries, List.getElem_range, mkRow]
    rw [List.getD_eq_getElem _ 0 (by simpa using hi),
      List.getD_eq_getElem _ 0 (by simpa using hi)]
    simp [List.getElem_map]

theorem dailyTable_trunc_map (d0 : ℤ) (vs : List ℤ) :
    (dailyTable d0 vs).map (fun p => (p.1, ((truncQ p.2 : ℤ) : ℚ)))
      = dailyTable d0 vs := by
  induction vs generalizing d0 with
  | nil => rfl
  | cons v vs ih => simp [dailyTable, truncQ_intCast, ih]

/-! ## Lemmas for the weekly-resampling branch -/

theorem diffsQ_length (l : List ℤ) : (diffsQ l).length = l.length - 1 := by
  induction l with
  | nil => rfl
  | cons a t ih =>
      cases t with
      | nil => rfl
      | cons b u => simpa [diffsQ] using ih

theorem medianQ_ne_nil {l : List ℚ} {m : ℚ} (h : medianQ l = some m) : l ≠ [] := by
  intro hnil
  rw [hnil] at h
  simp [medianQ] at h

theorem strictlyIncreasing_of_pairwise_nodup (l : List ℤ)
    (hp : l.Pairwise (· ≤ ·)) (hn : l.Nodup) : strictlyIncreasing l = true := by
  induction l with
  | nil => rfl
  | cons a t ih =>
      cases t with
      | nil => rfl
      | cons b u =>
          have hab : a ≤ b := List.rel_of_pairwise_cons hp (List.mem_cons_self b u)
          have hne : a ≠ b := by
            intro hcontra
            exact (List.nodup_cons.mp hn).1 (hcontra ▸ List.mem_cons_self b u)
          have : strictlyIncreasing (b :: u) = true := ih hp.tail (List.nodup_cons.mp hn).2
          simp only [strictlyIncreasing, Bool.and_eq_true, decide_eq_true_eq]
          exact ⟨lt_of_le_of_ne hab hne, this⟩

theorem strictlyIncreasing_cons (a : ℤ) (l : List ℤ)
    (h : strictlyIncreasing (a :: l) = true) :
    strictlyIncreasing l = true ∧ ∀ x ∈ l, a < x := by
  induction l generalizing a with
  | nil => exact ⟨rfl, by simp⟩
  | cons b t ih =>
      rw [strictlyIncreasing, Bool.and_eq_true, decide_eq_true_eq] at h
      refine ⟨h.2, ?_⟩
      intro x hx
      rcases List.mem_cons.mp hx with hxb | hxt
      · omega
      · have := (ih b h.2).2 x hxt
        omega

theorem nodup_of_strictlyIncreasing (l : List ℤ)
    (h : strictlyIncreasing l = true) : l.Nodup := by
  induction l with
  | nil => exact List.nodup_nil
  | cons a t ih =>
      rcases strictlyIncreasing_cons a t h with ⟨ht, hlt⟩
      refine List.nodup_cons.mpr ⟨?_, ih ht⟩
      intro hmem
      exact absurd (hlt a hmem) (lt_irrefl a)

/-- The calendar-day span pandas reindexes a table to: one date per day from
the first to the last date of the (sorted) table. -/
def dailySpanDates (s : List (ℤ × ℚ)) : List ℤ :=
  match s.head?, s.getLast? with
  | some f, some l => (List.range (l.1 - f.1 + 1).toNat).map (fun i => f.1 + (i : ℤ))
  | _, _ => []

theorem resampleDaily_map_fst (s : List (ℤ × ℚ)) (h : s ≠ []) :
    (resampleDaily s).map Prod.fst = dailySpanDates s := by
  obtain ⟨f, hf⟩ : ∃ f, s.head? = some f := by
    cases s with
    | nil => exact absurd rfl h
    | cons a t => exact ⟨a, rfl⟩
  obtain ⟨l, hl⟩ : ∃ l, s.getLast? = some l := by
    cases hlast : s.getLast? with
    | none => exact absurd (List.getLast?_eq_none_iff.mp hlast) h
    | some x => exact ⟨x, rfl⟩
  rw [resampleDaily, dailySpanDates, hf, hl]
  simp [List.map_map]

theorem resampleDaily_map_value (s : List (ℤ × ℚ)) (h : s ≠ []) :
    (resampleDaily s).map (fun p => truncQ p.2)
      = (dailySpanDates s).map (fun d => truncQ (ffillValue s d)) := by
  obtain ⟨f, hf⟩ : ∃ f, s.head? = some f := by
    cases s with
    | nil => exact absurd rfl h
    | cons a t => exact ⟨a, rfl⟩
  obtain ⟨l, hl⟩ : ∃ l, s.getLast? = some l := by
    cases hlast : s.getLast? with
    | none => exact absurd (List.getLast?_eq_none_iff.mp hlast) h
    | some x => exact ⟨x, rfl⟩
  rw [resampleDaily, dailySpanDates, hf, hl]
  simp [List.map_map]

/-! ## Claim theorems -/

/-- C8: canonicalization is idempotent on already-canonical input.  A daily
series (consecutive calendar days starting at `d0`, integer values) is
canonicalized; feeding the resulting `date`/`value` columns back through the
canonicalizer reproduces the whole canonical series — value column, calendar
fields, rolling average and growth rate included. -/
theorem c8_idempotence (d0 : ℤ) (vs : List ℤ) :
    common_post_processing
        ((common_post_processing (dailyTable d0 vs)).map (fun r => (r.date, (r.value : ℚ))))
      = common_post_processing (dailyTable d0 vs) := by
  rw [cpp_dailyTable, buildSeries_proj, dailyTable_trunc_map]
  exact cpp_dailyTable d0 vs

theorem export_zika_pass_eq (countries : List String) :
    export_zika_pass countries = ([], !countries.isEmpty) := by
  have hlook : lookupProcessingAttr "preprocess_zika_data" =
      Except.error "AttributeError: module 'processing' has no attribute 'preprocess_zika_data'" := by
    rfl
  have haux : ∀ (cs : List String) (p : List String × Bool),
      cs.foldl
        (fun acc c =>
          match lookupProcessingAttr "preprocess_zika_data" with
          | Except.ok _ => (acc.1 ++ [c], acc.2)
          | Except.error _ => (acc.1, true)) p
        = (p.1, p.2 || !cs.isEmpty) := by
    intro cs
    induction cs with
    | nil => intro p; simp
    | cons c cs ih =>
        intro p
        rw [List.foldl_cons, ih]
        rw [hlook]
        simp
  rw [export_zika_pass, haux]
  simp

/-- C5: every Zika invocation — the single-country analysis thread and each
country step of the two batch-export passes — resolves the attribute
`preprocess_zika_data` on the `processing` module, which defines no such name,
so the thread always fails with the `AttributeError` and the export passes
collect no Zika table for any country (and flag errors whenever at least one
country is attempted). -/
theorem c5_zika_always_fails :
    processingModuleAttrs.contains "preprocess_zika_data" = false ∧
    (∀ country targetType : String,
      processing_zika_thread_target country targetType =
        Except.error
          "AttributeError: module 'processing' has no attribute 'preprocess_zika_data'") ∧
    (∀ countries : List String,
      (export_zika_pass countries).1 = [] ∧
      (export_zika_pass countries).2 = !countries.isEmpty) := by
  refine ⟨by decide, ?_, ?_⟩
  · intro country targetType
    rfl
  · intro countries
    rw [export_zika_pass_eq]
    exact ⟨rfl, rfl⟩

/-- C3: for every model, scaler, positive horizon and last historical date,
the forecast generator succeeds with a table of length exactly the horizon,
whose dates are exactly the `horizon` consecutive calendar days starting the
day after the last historical date, and whose every predicted value is the
raw model output rounded to the nearest integer and clipped at 0 — in
particular non-negative. -/
theorem c3_forecast_contract (model : List ℚ → ℚ) (scaler : List ℚ → List ℚ)
    (num_days last_hist_date : ℤ) (h : 0 < num_days) :
    ∃ out, generate_predictions model scaler num_days last_hist_date = Except.ok out ∧
      out.length = num_days.toNat ∧
      out.map Prod.fst =
        (List.range num_days.toNat).map (fun i : ℕ => last_hist_date + 1 + (i : ℤ)) ∧
      ∀ p ∈ out, 0 ≤ p.2 ∧
        p.2 = max 0 (npRound (model (scaler (futureFeatures p.1)))) := by
  refine ⟨(List.range num_days.toNat).map (fun i : ℕ =>
      let d := last_hist_date + 1 + (i : ℤ)
      (d, max 0 (npRound (model (scaler (futureFeatures d)))))), ?_, ?_, ?_, ?_⟩
  · rw [generate_predictions, if_neg (by omega)]
  · simp
  · simp [List.map_map]
  · intro p hp
    rcases List.mem_map.mp hp with ⟨i, _, rfl⟩
    exact ⟨le_max_left _ _, rfl⟩

/-- Witness for C3 at a concrete model (constant 7/2), identity scaler,
horizon 3 and last historical date 2024-01-31. -/
theorem c3_witness :
    ∃ out, generate_predictions (fun _ => (7 : ℚ) / 2) (fun v => v) 3
        (daysFromCivil 2024 1 31) = Except.ok out ∧
      out.length = (3 : ℤ).toNat ∧
      out.map Prod.fst =
        (List.range (3 : ℤ).toNat).map (fun i : ℕ => daysFromCivil 2024 1 31 + 1 + (i : ℤ)) ∧
      ∀ p ∈ out, 0 ≤ p.2 ∧
        p.2 = max 0 (npRound ((fun _ => (7 : ℚ) / 2)
          ((fun v => v) (futureFeatures p.1)))) :=
  c3_forecast_contract (fun _ => (7 : ℚ) / 2) (fun v => v) 3 (daysFromCivil 2024 1 31)
    (by decide)

/-- C10 (amended): the COVID adapter leaves the caller's table untouched; the
influenza adapter leaves the caller holding the table with every country cell
replaced by its string representation (and therefore unchanged exactly when
every country cell is already a string). -/
theorem c10_adapter_effects (dfc : List CovidRow) (c : String) (t : TargetType)
    (dff : List FluRow) (cf : String) :
    (preprocess_covid_data dfc c t).2 = dfc ∧
    (preprocess_influenza_data dff cf).2 = stringifyCountry dff ∧
    ((∀ r ∈ dff, ∃ s, r.country = Cell.str s) →
      (preprocess_influenza_data dff cf).2 = dff) := by
  have hflu : (preprocess_influenza_data dff cf).2 = stringifyCountry dff := by
    by_cases h : dff.isEmpty
    · rw [preprocess_influenza_data, if_pos h, List.isEmpty_iff.mp h]
      rfl
    · rw [preprocess_influenza_data, if_neg h]
  refine ⟨rfl, hflu, ?_⟩
  intro hs
  rw [hflu]
  have : ∀ r ∈ dff, (fun r => { r with country := Cell.str (cellStr r.country) } : FluRow → FluRow) r = r := by
    intro r hr
    rcases hs r hr with ⟨s, hsr⟩
    cases r
    simp_all [cellStr]
  rw [stringifyCountry, List.map_congr_left this]
  simp

def exFluIntCountry : List FluRow :=
  [{ country := Cell.int 7, edate := some 10, all_inf := some 3 }]

/-- Counterexample for C10: on a table whose country cell holds the integer 7,
the influenza adapter leaves the caller with that cell rewritten to the string
"7" — the input table is not unchanged. -/
theorem c10_counterexample :
    (preprocess_influenza_data exFluIntCountry "x").2
        = [{ country := Cell.str "7", edate := some 10, all_inf := some 3 }] ∧
    ([{ country := Cell.str "7", edate := some 10, all_inf := some 3 }] : List FluRow)
        ≠ exFluIntCountry := by
  exact ⟨by decide, by decide⟩

def exFluFrance : List FluRow :=
  [{ country := Cell.str "France", edate := some 1, all_inf := some 2 }]

/-- Witness for C10 at concrete tables: the COVID adapter returns its input
table unchanged, and the influenza adapter leaves an all-string country column
unchanged. -/
theorem c10_witness :
    (preprocess_covid_data
        [{ country := "France", date := 5, new_cases := some 3, new_deaths := some 1 }]
        "France" TargetType.Cases).2
      = [{ country := "France", date := 5, new_cases := some 3, new_deaths := some 1 }] ∧
    (preprocess_influenza_data exFluFrance "x").2 = exFluFrance := by
  refine ⟨(c10_adapter_effects _ "France" TargetType.Cases exFluFrance "x").1, ?_⟩
  refine (c10_adapter_effects [] "France" TargetType.Cases exFluFrance "x").2.2 ?_
  intro r hr
  rw [List.mem_singleton.mp hr]
  exact ⟨"France", rfl⟩

/-- C7 (amended): when filtering the input to the requested location yields
zero rows, each adapter raises (its result is the error below, never a
successful empty table); the sample of valid locations is only printed to the
log — the raised message names the requested location alone. -/
theorem c7_not_found (dfc : List CovidRow) (c : String) (t : TargetType)
    (dff : List FluRow) (cf : String) :
    (dfc ≠ [] → covidFiltered dfc c = [] →
      (preprocess_covid_data dfc c t).1 = Except.error (covidNotFoundMsg c)) ∧
    (dff ≠ [] → (stringifyCountry dff).filter (fluMatches cf) = [] →
      (preprocess_influenza_data dff cf).1 = Except.error (fluNotFoundMsg cf)) := by
  constructor
  · intro h1 h2
    show (if dfc.isEmpty then _ else _) = _
    rw [if_neg (by simp [h1])]
    show (if (covidFiltered dfc c).isEmpty then _ else _) = _
    rw [if_pos (by simp [h2])]
  · intro h1 h2
    rw [preprocess_influenza_data, if_neg (by simp [h1])]
    show (if ((stringifyCountry dff).filter (fluMatches cf)).isEmpty then _ else _) = _
    rw [if_pos (by simp [h2])]

def exCovidFrance : List CovidRow :=
  [{ country := "France", date := 5, new_cases := some 3, new_deaths := some 1 }]

/-- Counterexample for C7: requesting "Atlantis" from a source whose only
location is "France" raises, but the raised message is exactly the
location-not-found string, and "France" — the only valid location of the
source — does not occur in it, so the message contains no sample of valid
locations. -/
theorem c7_counterexample :
    (preprocess_covid_data exCovidFrance "Atlantis" TargetType.Cases).1
        = Except.error (covidNotFoundMsg "Atlantis") ∧
    exCovidFrance.map CovidRow.country = ["France"] ∧
    ¬ List.IsInfix "France".data ((covidNotFoundMsg "Atlantis").data) := by
  refine ⟨rfl, rfl, by decide⟩

/-- Witness for C7 at concrete tables: both adapters raise the
location-not-found error for "Atlantis". -/
theorem c7_witness :
    (preprocess_covid_data exCovidFrance "Atlantis" TargetType.Deaths).1
        = Except.error (covidNotFoundMsg "Atlantis") ∧
    (preprocess_influenza_data exFluFrance "Atlantis").1
        = Except.error (fluNotFoundMsg "Atlantis") := by
  constructor
  · exact (c7_not_found exCovidFrance "Atlantis" TargetType.Deaths exFluFrance "Atlantis").1
      (by decide) (by decide)
  · exact (c7_not_found exCovidFrance "Atlantis" TargetType.Deaths exFluFrance "Atlantis").2
      (by decide) (by decide)

/-- C4 (amended): when at least one but fewer than 10 rows survive the dropna
over the required feature/target columns, training fails with the
insufficient-data error naming the surviving row count and the minimum 10 and
never reaches the model fit; with 10 or more surviving rows that error is not
raised and training proceeds to the fit on exactly the surviving rows.  (When
zero rows survive, training still fails before any fit, but with the
no-valid-data message, which names no counts.) -/
theorem c4_insufficient_data (df : List TrainRow) (t : String) :
    (df.filter trainRowComplete ≠ [] →
      (df.filter trainRowComplete).length < minTrainingRows →
      train_prediction_model df t =
        Except.error
          (insufficientDataMsg (df.filter trainRowComplete).length t.capitalize)) ∧
    (minTrainingRows ≤ (df.filter trainRowComplete).length →
      train_prediction_model df t = Except.ok (df.filter trainRowComplete)) := by
  constructor
  · intro hne hlt
    have hdf : df ≠ [] := by
      intro h
      rw [h] at hne
      exact hne rfl
    rw [train_prediction_model, if_neg (by simp [hdf])]
    show (if (df.filter trainRowComplete).isEmpty then _ else _) = _
    rw [if_neg (by simp [hne]), if_pos hlt]
  · intro hge
    have hne : df.filter trainRowComplete ≠ [] := by
      intro h
      rw [h] at hge
      simp [minTrainingRows] at hge
    have hdf : df ≠ [] := by
      intro h
      rw [h] at hne
      exact hne rfl
    rw [train_prediction_model, if_neg (by simp [hdf])]
    show (if (df.filter trainRowComplete).isEmpty then _ else _) = _
    rw [if_neg (by simp [hne]), if_neg (by omega)]

def exTrainMissing : List TrainRow :=
  List.replicate 5
    { day_of_year := some 1, month := some 1, day := some 1,
      day_of_week := some 0, target := none }

set_option maxRecDepth 8000 in
/-- Counterexample for C4: on a 5-row table whose target column is entirely
NaN, zero rows survive the dropna (fewer than 10), and training fails with the
no-valid-data message — which contains no digit at all, hence names neither
the remaining row count nor the minimum of 10. -/
theorem c4_counterexample :
    train_prediction_model exTrainMissing "cases"
        = Except.error (noValidDataMsg "Cases") ∧
    ¬ List.IsInfix "0".data ((noValidDataMsg "Cases").data) ∧
    ¬ List.IsInfix "10".data ((noValidDataMsg "Cases").data) := by
  refine ⟨rfl, by decide, by decide⟩

def exTrainFive : List TrainRow :=
  List.replicate 5
    { day_of_year := some 1, month := some 2, day := some 3,
      day_of_week := some 4, target := some 5 }

def exTrainTwelve : List TrainRow :=
  List.replicate 12
    { day_of_year := some 1, month := some 2, day := some 3,
      day_of_week := some 4, target := some 5 }

/-- Witness for C4: 5 complete rows give the insufficient-data error naming 5
and 10; 12 complete rows train successfully. -/
theorem c4_witness :
    train_prediction_model exTrainFive "cases"
        = Except.error (insufficientDataMsg 5 "Cases") ∧
    train_prediction_model exTrainTwelve "deaths" = Except.ok exTrainTwelve := by
  constructor
  · exact (c4_insufficient_data exTrainFive "cases").1 (by decide) (by decide)
  · exact (c4_insufficient_data exTrainTwelve "deaths").2 (by decide)

/-- C9: with at least 7 observations the statistics engine classifies risk and
trend from the mean growth rate over the trailing 7 observations — above 5:
High/Increasing; in (1, 5]: Medium/Slightly Increasing; in [-1, 1]:
Medium/Stable; in [-5, -1): Low/Slightly Decreasing; below -5:
Low/Decreasing.  With fewer than 7 observations it reports the
insufficient-history classification and the stats call still succeeds. -/
theorem c9_risk_trend (df : List Row) :
    (7 ≤ df.length →
      (5 < recentMeanGrowth df → riskTrend df = ("High", "↗️ Increasing")) ∧
      (1 < recentMeanGrowth df ∧ recentMeanGrowth df ≤ 5 →
        riskTrend df = ("Medium", "↗️ Slightly Inc")) ∧
      (-1 ≤ recentMeanGrowth df ∧ recentMeanGrowth df ≤ 1 →
        riskTrend df = ("Medium", "Stable")) ∧
      (-5 ≤ recentMeanGrowth df ∧ recentMeanGrowth df < -1 →
        riskTrend df = ("Low", "↘️ Slightly Dec")) ∧
      (recentMeanGrowth df < -5 → riskTrend df = ("Low", "↘️ Decreasing"))) ∧
    (df ≠ [] → df.length < 7 →
      riskTrend df = ("Medium", "Insufficient history") ∧
      ∃ s, calculate_analysis_stats df = Except.ok s ∧
        s.risk_level = "Medium" ∧ s.trend_desc = "Insufficient history") := by
  constructor
  · intro h7
    have hunfold : riskTrend df =
        (if 5 < recentMeanGrowth df then ("High", "↗️ Increasing")
         else if recentMeanGrowth df < -5 then ("Low", "↘️ Decreasing")
         else if 1 < recentMeanGrowth df then ("Medium", "↗️ Slightly Inc")
         else if recentMeanGrowth df < -1 then ("Low", "↘️ Slightly Dec")
         else ("Medium", "Stable")) := by
      rw [riskTrend, if_pos h7]
    refine ⟨?_, ?_, ?_, ?_, ?_⟩
    · intro hg
      rw [hunfold, if_pos hg]
    · rintro ⟨hg1, hg5⟩
      rw [hunfold, if_neg (by linarith), if_neg (by linarith), if_pos hg1]
    · rintro ⟨hgl, hgr⟩
      rw [hunfold, if_neg (by linarith), if_neg (by linarith),
        if_neg (by linarith), if_neg (by linarith)]
    · rintro ⟨hgl, hgr⟩
      rw [hunfold, if_neg (by linarith), if_neg (by linarith),
        if_neg (by linarith), if_pos hgr]
    · intro hg
      rw [hunfold, if_neg (by linarith), if_pos hg]
  · intro hne hlt
    have hrt : riskTrend df = ("Medium", "Insufficient history") := by
      rw [riskTrend, if_neg (by omega), if_pos (by simp [hne])]
    refine ⟨hrt, ?_⟩
    have hcalc : calculate_analysis_stats df = Except.ok
        { raw_total := (df.map (fun r => (r.value : ℚ))).sum
          raw_avg := (df.map (fun r => (r.value : ℚ))).sum /
            ((df.map (fun r => (r.value : ℚ))).length : ℚ)
          risk_level := (riskTrend df).1
          trend_desc := (riskTrend df).2 } := by
      rw [calculate_analysis_stats, if_neg (by simp [hne])]
    refine ⟨_, hcalc, ?_, ?_⟩
    · show (riskTrend df).1 = "Medium"
      rw [hrt]
    · show (riskTrend df).2 = "Insufficient history"
      rw [hrt]

def mkGrowthRow (g : ℚ) : Row :=
  { date := 0, value := 0, day_of_year := 0, month := 0, day := 0,
    day_of_week := 0, avg7 := 0, growth_rate := g }

/-- Witness for C9: seven observations with mean recent growth 10 classify as
High/Increasing; three observations report insufficient history. -/
theorem c9_witness :
    riskTrend (List.replicate 7 (mkGrowthRow 10)) = ("High", "↗️ Increasing") ∧
    riskTrend (List.replicate 3 (mkGrowthRow 0)) = ("Medium", "Insufficient history") := by
  constructor
  · refine ((c9_risk_trend (List.replicate 7 (mkGrowthRow 10))).1 (by decide)).1 ?_
    have : recentMeanGrowth (List.replicate 7 (mkGrowthRow 10)) = 10 := by
      rw [recentMeanGrowth]
      norm_num [mkGrowthRow, List.map_replicate, List.sum_replicate]
    rw [this]
    norm_num
  · exact ((c9_risk_trend (List.replicate 3 (mkGrowthRow 0))).2 (by decide) (by decide)).1

/-- The `value` column of the canonical series the canonicalizer produces. -/
def valueColumn (rows : List (ℤ × ℚ)) : List ℤ :=
  (common_post_processing rows).map Row.value

/-- The `growth_rate` column of the canonical series the canonicalizer
produces. -/
def growthColumn (rows : List (ℤ × ℚ)) : List ℚ :=
  (common_post_processing rows).map Row.growth_rate

/-- C1: in every canonical series, the growth rate at position `t` is 0 when
there is no previous value or the previous value is 0, and is
`(value[t] - value[t-1]) / value[t-1] * 100` when the previous value is
positive — a total rational, so never NaN or infinite (the `pct_change`
artifacts on zero are exactly the cases sent to 0).  For input values
`[0, 0, 5, 0]` on consecutive days the growth rates are `[0, 0, 0, -100]`. -/
theorem c1_growth_rate (rows : List (ℤ × ℚ)) (t : ℕ)
    (ht : t < (common_post_processing rows).length) :
    ((t = 0 → (growthColumn rows).getD t 0 = 0) ∧
     (0 < t → (valueColumn rows).getD (t - 1) 0 = 0 →
        (growthColumn rows).getD t 0 = 0) ∧
     (0 < t → 0 < (valueColumn rows).getD (t - 1) 0 →
        (growthColumn rows).getD t 0 =
          (((valueColumn rows).getD t 0 : ℚ) -
              ((valueColumn rows).getD (t - 1) 0 : ℚ)) /
            ((valueColumn rows).getD (t - 1) 0 : ℚ) * 100)) ∧
    growthColumn (dailyTable 0 [0, 0, 5, 0]) = [0, 0, 0, -100] := by
  constructor
  · by_cases hnil : rows = []
    · rw [hnil] at ht
      simp [common_post_processing] at ht
    · have hcpp := common_post_processing_of_ne_nil hnil
      have hlen : t < (resampledOf rows).length := by
        rw [hcpp] at ht
        simpa [buildSeries_length] using ht
      have hval : valueColumn rows = (resampledOf rows).map (fun r => truncQ r.2) := by
        rw [valueColumn, hcpp, buildSeries_map_value]
      have hg : (growthColumn rows).getD t 0 =
          if t = 0 then 0
          else growthRate (((resampledOf rows).map (fun r => truncQ r.2)).getD (t - 1) 0)
            (((resampledOf rows).map (fun r => truncQ r.2)).getD t 0) := by
        rw [growthColumn, hcpp]
        exact buildSeries_growth_getD _ t hlen
      refine ⟨?_, ?_, ?_⟩
      · intro h0
        rw [hg, if_pos h0]
      · intro hpos hprev
        rw [hval] at hprev
        rw [hg, if_neg (by omega), growthRate, if_pos hprev]
      · intro hpos hprev
        rw [hval] at hprev
        rw [hg, if_neg (by omega), growthRate, if_neg (by omega), hval]
  · rw [growthColumn, cpp_dailyTable]
    have hb : buildSeries (dailyTable 0 [0, 0, 5, 0]) =
        [mkRow [0, 1, 2, 3] [truncQ ((0 : ℤ) : ℚ), truncQ ((0 : ℤ) : ℚ),
            truncQ ((5 : ℤ) : ℚ), truncQ ((0 : ℤ) : ℚ)] 0,
         mkRow [0, 1, 2, 3] [truncQ ((0 : ℤ) : ℚ), truncQ ((0 : ℤ) : ℚ),
            truncQ ((5 : ℤ) : ℚ), truncQ ((0 : ℤ) : ℚ)] 1,
         mkRow [0, 1, 2, 3] [truncQ ((0 : ℤ) : ℚ), truncQ ((0 : ℤ) : ℚ),
            truncQ ((5 : ℤ) : ℚ), truncQ ((0 : ℤ) : ℚ)] 2,
         mkRow [0, 1, 2, 3] [truncQ ((0 : ℤ) : ℚ), truncQ ((0 : ℤ) : ℚ),
            truncQ ((5 : ℤ) : ℚ), truncQ ((0 : ℤ) : ℚ)] 3] := rfl
    rw [hb]
    simp only [truncQ_intCast, List.map_cons, List.map_nil]
    show [(0 : ℚ), growthRate 0 0, growthRate 0 5, growthRate 5 0] = [0, 0, 0, -100]
    norm_num [growthRate]

/-- Witness for C1 at the concrete input `[0, 0, 5, 0]` on consecutive days,
taken at position 3. -/
theorem c1_witness :
    growthColumn (dailyTable 0 [0, 0, 5, 0]) = [0, 0, 0, -100] :=
  (c1_growth_rate (dailyTable 0 [0, 0, 5, 0]) 3
    (by rw [cpp_dailyTable]; decide)).2

theorem resampledOf_eq (rows : List (ℤ × ℚ)) (m : ℚ)
    (hm : medianQ (diffsQ ((sortBy (fun a b => decide (a.1 ≤ b.1)) rows).map Prod.fst))
      = some m)
    (hlen : 1 < (sortBy (fun a b => decide (a.1 ≤ b.1)) rows).length) :
    resampledOf rows =
      if 6 ≤ m ∧ m ≤ 8 then
        if strictlyIncreasing ((sortBy (fun a b => decide (a.1 ≤ b.1)) rows).map Prod.fst)
        then resampleDaily (sortBy (fun a b => decide (a.1 ≤ b.1)) rows)
        else sortBy (fun a b => decide (a.1 ≤ b.1)) rows
      else sortBy (fun a b => decide (a.1 ≤ b.1)) rows := by
  rw [resampledOf]
  simp only [hm, if_pos hlen]

def exWeekly : List (ℤ × ℚ) :=
  [(daysFromCivil 2024 1 7, 100), (daysFromCivil 2024 1 14, 140)]

def expectedWeekly : List (ℤ × ℤ) :=
  [(daysFromCivil 2024 1 7, 100), (daysFromCivil 2024 1 8, 100),
   (daysFromCivil 2024 1 9, 100), (daysFromCivil 2024 1 10, 100),
   (daysFromCivil 2024 1 11, 100), (daysFromCivil 2024 1 12, 100),
   (daysFromCivil 2024 1 13, 100), (daysFromCivil 2024 1 14, 140)]

set_option maxRecDepth 40000 in
/-- C2 (amended): for a table with at least two rows on *distinct* dates, the
canonicalizer reindexes to one row per calendar day across the full span with
forward-filled values exactly when the median day gap lies in [6, 8]; outside
that window the rows keep their (sorted) original dates and values.  When
same-date duplicates are present, pandas `resample` faults on the duplicate
labels, the exception is caught, and the rows likewise keep their sorted
original dates and values even when the median lies in [6, 8].  Weekly input
[(2024-01-07, 100), (2024-01-14, 140)] yields the 8 calendar days 2024-01-07
.. 2024-01-14 with value 100 up to 2024-01-13 and 140 on 2024-01-14. -/
theorem c2_weekly_resampling (rows : List (ℤ × ℚ)) (m : ℚ)
    (hm : medianQ (diffsQ ((sortBy (fun a b => decide (a.1 ≤ b.1)) rows).map Prod.fst))
      = some m) :
    ((rows.map Prod.fst).Nodup → (6 ≤ m ∧ m ≤ 8) →
      (common_post_processing rows).map Row.date =
        dailySpanDates (sortBy (fun a b => decide (a.1 ≤ b.1)) rows) ∧
      (common_post_processing rows).map Row.value =
        (dailySpanDates (sortBy (fun a b => decide (a.1 ≤ b.1)) rows)).map
          (fun d => truncQ (ffillValue (sortBy (fun a b => decide (a.1 ≤ b.1)) rows) d))) ∧
    (¬ (6 ≤ m ∧ m ≤ 8) →
      (common_post_processing rows).map Row.date =
        (sortBy (fun a b => decide (a.1 ≤ b.1)) rows).map Prod.fst ∧
      (common_post_processing rows).map Row.value =
        (sortBy (fun a b => decide (a.1 ≤ b.1)) rows).map (fun p => truncQ p.2)) ∧
    (¬ (rows.map Prod.fst).Nodup →
      (common_post_processing rows).map Row.date =
        (sortBy (fun a b => decide (a.1 ≤ b.1)) rows).map Prod.fst ∧
      (common_post_processing rows).map Row.value =
        (sortBy (fun a b => decide (a.1 ≤ b.1)) rows).map (fun p => truncQ p.2)) ∧
    (common_post_processing exWeekly).map (fun r => (r.date, r.value)) = expectedWeekly := by
  have htot : ∀ a b : ℤ × ℚ, (decide (a.1 ≤ b.1)) = false → (decide (b.1 ≤ a.1)) = true := by
    intro a b h
    simp only [decide_eq_false_iff_not, not_le] at h
    simp only [decide_eq_true_eq]
    omega
  have htrans : ∀ a b c : ℤ × ℚ, (decide (a.1 ≤ b.1)) = true →
      (decide (b.1 ≤ c.1)) = true → (decide (a.1 ≤ c.1)) = true := by
    intro a b c h1 h2
    simp only [decide_eq_true_eq] at h1 h2 ⊢
    omega
  have hdne : diffsQ ((sortBy (fun a b => decide (a.1 ≤ b.1)) rows).map Prod.fst) ≠ [] :=
    medianQ_ne_nil hm
  have hslen2 : 2 ≤ (sortBy (fun a b => decide (a.1 ≤ b.1)) rows).length := by
    have h1 := diffsQ_length ((sortBy (fun a b => decide (a.1 ≤ b.1)) rows).map Prod.fst)
    have h0 : 0 < (diffsQ ((sortBy (fun a b => decide (a.1 ≤ b.1)) rows).map Prod.fst)).length :=
      List.length_pos.mpr hdne
    rw [h1, List.length_map] at h0
    omega
  have hsne : sortBy (fun a b => decide (a.1 ≤ b.1)) rows ≠ [] := by
    intro h
    rw [h] at hslen2
    simp at hslen2
  have hrownil : rows ≠ [] := by
    intro h
    rw [h] at hsne
    exact hsne rfl
  have hcpp := common_post_processing_of_ne_nil hrownil
  have hpair := pairwise_sortBy (fun a b : ℤ × ℚ => decide (a.1 ≤ b.1)) htot htrans rows
  have hpairfst : ((sortBy (fun a b => decide (a.1 ≤ b.1)) rows).map Prod.fst).Pairwise
      (· ≤ ·) :=
    hpair.map Prod.fst (fun a b h => of_decide_eq_true h)
  have hperm : ((sortBy (fun a b => decide (a.1 ≤ b.1)) rows).map Prod.fst).Perm
      (rows.map Prod.fst) :=
    (sortBy_perm _ rows).map Prod.fst
  have hres := resampledOf_eq rows m hm (by omega)
  refine ⟨?_, ?_, ?_, ?_⟩
  · intro hnd hcond
    have hndfst : ((sortBy (fun a b => decide (a.1 ≤ b.1)) rows).map Prod.fst).Nodup :=
      hperm.nodup_iff.mpr hnd
    have hinc : strictlyIncreasing
        ((sortBy (fun a b => decide (a.1 ≤ b.1)) rows).map Prod.fst) = true :=
      strictlyIncreasing_of_pairwise_nodup _ hpairfst hndfst
    have hres2 : resampledOf rows =
        resampleDaily (sortBy (fun a b => decide (a.1 ≤ b.1)) rows) := by
      rw [hres, if_pos hcond, if_pos hinc]
    exact ⟨by rw [hcpp, hres2, buildSeries_map_date, resampleDaily_map_fst _ hsne],
      by rw [hcpp, hres2, buildSeries_map_value, resampleDaily_map_value _ hsne]⟩
  · intro hcond
    have hres2 : resampledOf rows = sortBy (fun a b => decide (a.1 ≤ b.1)) rows := by
      rw [hres, if_neg hcond]
    exact ⟨by rw [hcpp, hres2, buildSeries_map_date],
      by rw [hcpp, hres2, buildSeries_map_value]⟩
  · intro hnnd
    have hndfst : ¬ ((sortBy (fun a b => decide (a.1 ≤ b.1)) rows).map Prod.fst).Nodup := by
      intro hcontra
      exact hnnd (hperm.nodup_iff.mp hcontra)
    have hinc : strictlyIncreasing
        ((sortBy (fun a b => decide (a.1 ≤ b.1)) rows).map Prod.fst) = false := by
      cases hcase : strictlyIncreasing
          ((sortBy (fun a b => decide (a.1 ≤ b.1)) rows).map Prod.fst) with
      | false => rfl
      | true => exact absurd (nodup_of_strictlyIncreasing _ hcase) hndfst
    have hres2 : resampledOf rows = sortBy (fun a b => decide (a.1 ≤ b.1)) rows := by
      rw [hres]
      by_cases hcond : 6 ≤ m ∧ m ≤ 8
      · rw [if_pos hcond, if_neg (by simp [hinc])]
      · rw [if_neg hcond]
    exact ⟨by rw [hcpp, hres2, buildSeries_map_date],
      by rw [hcpp, hres2, buildSeries_map_value]⟩
  · decide

set_option maxRecDepth 40000 in
/-- Witness for C2 at the concrete weekly input, whose median gap is 7
days. -/
theorem c2_witness :
    (common_post_processing exWeekly).map Row.date =
      dailySpanDates (sortBy (fun a b => decide (a.1 ≤ b.1)) exWeekly) ∧
    (common_post_processing exWeekly).map Row.value =
      (dailySpanDates (sortBy (fun a b => decide (a.1 ≤ b.1)) exWeekly)).map
        (fun d => truncQ (ffillValue (sortBy (fun a b => decide (a.1 ≤ b.1)) exWeekly) d)) :=
  (c2_weekly_resampling exWeekly 7 (by decide)).1 (by decide) (by decide)

/-- A table with two rows on the same date and a median gap of 7 days. -/
def exDupWeekly : List (ℤ × ℚ) :=
  [(0, 1), (0, 2), (7, 3), (14, 4), (21, 5), (28, 6)]

set_option maxRecDepth 40000 in
/-- Counterexample for C2: this six-row table's median date gap is 7 days —
inside [6, 8] — yet the canonicalizer does not reindex it to one row per
calendar day across the span: pandas `resample` faults on the duplicated date,
the exception is caught, and the output keeps the six sorted original dates
(duplicate included), so the claim's "if and only if" fails in the forward
direction. -/
theorem c2_counterexample :
    medianQ (diffsQ ((sortBy (fun a b => decide (a.1 ≤ b.1)) exDupWeekly).map Prod.fst))
      = some 7 ∧
    ((6 : ℚ) ≤ 7 ∧ (7 : ℚ) ≤ 8) ∧
    (common_post_processing exDupWeekly).map Row.date = [0, 0, 7, 14, 21, 28] ∧
    (common_post_processing exDupWeekly).map Row.date ≠
      dailySpanDates (sortBy (fun a b => decide (a.1 ≤ b.1)) exDupWeekly) := by
  refine ⟨by decide, by decide, by decide, by decide⟩

/-- C6 (amended): the influenza adapter sorts ascending by date — with the tie
order among equal dates unspecified, since `sort_values`' default quicksort is
not documented stable — and then deduplicates to exactly one row per date,
keeping the last tied row of the *sorted* order, i.e. the value of some
same-date occurrence of the standardized table, not necessarily the last in
file order.  Stated over every date-sorted permutation of the standardized
table: the first clause gives, for each date, either absence from both the
output and the table, or a unique output row whose value is one of that
date's occurrences; the second clause says the adapter's output is the
dedup of such a sorted permutation.  The COVID adapter sorts ascending by
date but keeps every filtered row — duplicate dates survive with all their
values. -/
theorem c6_dedup_contract :
    (∀ (df : List FluRow) (c : String) (l : List (ℤ × ℤ)),
      l.Perm (fluStd df c) →
      l.Pairwise (fun a b => a.1 ≤ b.1) →
      (dropDupKeepLast Prod.fst l).Pairwise (fun a b => a.1 ≤ b.1) ∧
      ∀ d : ℤ,
        ((dropDupKeepLast Prod.fst l).filter (fun p => decide (p.1 = d)) = [] ∧
          (fluStd df c).filter (fun p => decide (p.1 = d)) = []) ∨
        (∃ v : ℤ,
          (dropDupKeepLast Prod.fst l).filter (fun p => decide (p.1 = d)) = [(d, v)] ∧
          (d, v) ∈ (fluStd df c).filter (fun p => decide (p.1 = d)))) ∧
    (∀ (df : List FluRow) (c : String) (out : List (ℤ × ℤ)),
      (preprocess_influenza_data df c).1 = Except.ok out →
      ∃ l, l.Perm (fluStd df c) ∧ l.Pairwise (fun a b => a.1 ≤ b.1) ∧
        out = dropDupKeepLast Prod.fst l) ∧
    (∀ (df : List CovidRow) (c : String) (t : TargetType) (out : List (ℤ × ℚ)),
      (preprocess_covid_data df c t).1 = Except.ok out →
      out.Pairwise (fun a b => a.1 ≤ b.1) ∧
      out.Perm ((covidFiltered df c).map
        (fun r => (r.date, (covidSourceCell t r).getD 0)))) := by
  have htotP : ∀ a b : ℤ × ℤ, (decide (a.1 ≤ b.1)) = false → (decide (b.1 ≤ a.1)) = true := by
    intro a b h
    simp only [decide_eq_false_iff_not, not_le] at h
    simp only [decide_eq_true_eq]
    omega
  have htransP : ∀ a b c : ℤ × ℤ, (decide (a.1 ≤ b.1)) = true →
      (decide (b.1 ≤ c.1)) = true → (decide (a.1 ≤ c.1)) = true := by
    intro a b c h1 h2
    simp only [decide_eq_true_eq] at h1 h2 ⊢
    omega
  refine ⟨?_, ?_, ?_⟩
  · intro df c l hperm hsorted
    constructor
    · exact List.Pairwise.sublist (dropDupKeepLast_sublist Prod.fst l) hsorted
    · intro d
      rw [filter_dropDupKeepLast Prod.fst d l]
      have hpf : (l.filter (fun p => decide (p.1 = d))).Perm
          ((fluStd df c).filter (fun p => decide (p.1 = d))) :=
        hperm.filter _
      by_cases hfil : l.filter (fun p => decide (p.1 = d)) = []
      · left
        refine ⟨by simp [hfil], ?_⟩
        rw [hfil] at hpf
        exact (hpf.symm).eq_nil
      · right
        have hy := List.getLast_mem hfil
        have hyd : ((l.filter (fun p => decide (p.1 = d))).getLast hfil).1 = d :=
          of_decide_eq_true (List.mem_filter.mp hy).2
        have hyeq : (l.filter (fun p => decide (p.1 = d))).getLast hfil
            = (d, ((l.filter (fun p => decide (p.1 = d))).getLast hfil).2) :=
          Prod.ext_iff.mpr ⟨hyd, rfl⟩
        refine ⟨((l.filter (fun p => decide (p.1 = d))).getLast hfil).2, ?_, ?_⟩
        · rw [List.getLast?_eq_getLast _ hfil]
          simpa [Option.toList] using hyeq
        · rw [← hyeq]
          exact hpf.mem_iff.mp hy
  · intro df c out h
    by_cases h1 : df.isEmpty
    · simp [preprocess_influenza_data, h1] at h
    by_cases h2 : ((stringifyCountry df).filter (fluMatches c)).isEmpty
    · simp [preprocess_influenza_data, h1, h2] at h
    by_cases h3 : (fluStd df c).isEmpty
    · simp [preprocess_influenza_data, h1, h2, h3] at h
    have hout : out = dropDupKeepLast Prod.fst
        (sortBy (fun a b => decide (a.1 ≤ b.1)) (fluStd df c)) := by
      simp only [preprocess_influenza_data, h1, h2, h3, Bool.false_eq_true, if_false,
        Except.ok.injEq] at h
      exact h.symm
    exact ⟨sortBy (fun a b => decide (a.1 ≤ b.1)) (fluStd df c),
      sortBy_perm _ _,
      (pairwise_sortBy _ htotP htransP _).imp (fun h => of_decide_eq_true h),
      hout⟩
  · intro df c t out h
    by_cases h1 : df.isEmpty
    · simp [preprocess_covid_data, h1] at h
    by_cases h2 : (covidFiltered df c).isEmpty
    · simp [preprocess_covid_data, h1, h2] at h
    have hout : out = (sortBy (fun a b => decide (a.date ≤ b.date)) (covidFiltered df c)).map
        (fun r => (r.date, (covidSourceCell t r).getD 0)) := by
      simp only [preprocess_covid_data, h1, h2, Bool.false_eq_true, if_false,
        Except.ok.injEq] at h
      exact h.symm
    have htotC : ∀ a b : CovidRow, (decide (a.date ≤ b.date)) = false →
        (decide (b.date ≤ a.date)) = true := by
      intro a b hab
      simp only [decide_eq_false_iff_not, not_le] at hab
      simp only [decide_eq_true_eq]
      omega
    have htransC : ∀ a b c : CovidRow, (decide (a.date ≤ b.date)) = true →
        (decide (b.date ≤ c.date)) = true → (decide (a.date ≤ c.date)) = true := by
      intro a b c hab hbc
      simp only [decide_eq_true_eq] at hab hbc ⊢
      omega
    constructor
    · rw [hout]
      exact (pairwise_sortBy _ htotC htransC (covidFiltered df c)).map _
        (fun a b hab => of_decide_eq_true hab)
    · rw [hout]
      exact (sortBy_perm _ (covidFiltered df c)).map _

def exCovidDup : List CovidRow :=
  [{ country := "A", date := 10, new_cases := some 1, new_deaths := none },
   { country := "A", date := 10, new_cases := some 2, new_deaths := none }]

/-- Counterexample for C6: two same-date rows fed to the COVID adapter both
survive — the output holds two rows for date 10, not a single deduplicated
row carrying the last value. -/
theorem c6_counterexample :
    (preprocess_covid_data exCovidDup "A" TargetType.Cases).1 =
      Except.ok [((10 : ℤ), (1 : ℚ)), (10, 2)] ∧
    ([((10 : ℤ), (1 : ℚ)), (10, 2)].filter (fun p => decide (p.1 = 10))).length = 2 := by
  exact ⟨rfl, by decide⟩

def exFluDup : List FluRow :=
  [{ country := Cell.str "A", edate := some 10, all_inf := some 1 },
   { country := Cell.str "A", edate := some 10, all_inf := some 2 },
   { country := Cell.str "A", edate := some 5, all_inf := some 9 }]

/-- Witness for C6 at concrete tables: for one date-sorted permutation of a
duplicated-date standardized influenza table, the dedup is sorted and keeps
for date 10 a unique row carrying one of that date's values; the adapter's
output is the dedup of such a permutation; and the COVID adapter's output is a
permutation of all filtered rows. -/
theorem c6_witness :
    (dropDupKeepLast Prod.fst [((5 : ℤ), (9 : ℤ)), (10, 1), (10, 2)]).Pairwise
      (fun a b => a.1 ≤ b.1) ∧
    (((dropDupKeepLast Prod.fst [((5 : ℤ), (9 : ℤ)), (10, 1), (10, 2)]).filter
          (fun p => decide (p.1 = 10)) = [] ∧
        (fluStd exFluDup "A").filter (fun p => decide (p.1 = 10)) = []) ∨
      (∃ v : ℤ,
        (dropDupKeepLast Prod.fst [((5 : ℤ), (9 : ℤ)), (10, 1), (10, 2)]).filter
          (fun p => decide (p.1 = 10)) = [(10, v)] ∧
        ((10 : ℤ), v) ∈ (fluStd exFluDup "A").filter (fun p => decide (p.1 = 10)))) ∧
    (∃ l, l.Perm (fluStd exFluDup "A") ∧ l.Pairwise (fun a b => a.1 ≤ b.1) ∧
      [((5 : ℤ), (9 : ℤ)), (10, 2)] = dropDupKeepLast Prod.fst l) ∧
    List.Perm [((10 : ℤ), (1 : ℚ)), (10, 2)]
      ((covidFiltered exCovidDup "A").map
        (fun r => (r.date, (covidSourceCell TargetType.Cases r).getD 0))) := by
  have hgen := c6_dedup_contract.1 exFluDup "A" [((5 : ℤ), (9 : ℤ)), (10, 1), (10, 2)]
    (by decide) (by decide)
  have hinst := c6_dedup_contract.2.1 exFluDup "A" [((5 : ℤ), (9 : ℤ)), (10, 2)] (by rfl)
  have hcov := c6_dedup_contract.2.2 exCovidDup "A" TargetType.Cases
    [((10 : ℤ), (1 : ℚ)), (10, 2)] (by rfl)
  exact ⟨hgen.1, hgen.2 10, hinst, hcov.2⟩

end DiseaseTracker
